import Mathlib

/-!
Verification of the platform-discriminated configuration validator and
defaulter described by the specification of this repository, against the
behaviors exercised by the ControlPlaneMachineSet OpenStack failure-domain
test corpus (vendor/github.com/openshift/api/machine/v1/
stable.controlplanemachineset.openstack.testsuite.yaml).

The CRD schema that implements the engine is not part of the source tree
(only its test suite is), so the engine below is modelled from the
specification's component contracts (SchemaRegistry, Defaulter, RuleSet
evaluation, PathTracker) and is checked to reproduce every fixture of the
test corpus that the claims cite.
-/

/-- A configuration object: a tree of named fields, strings, integers and
lists, shaped like parsed YAML/JSON. Array elements and object fields keep
their order. -/
inductive Value where
  | str (s : String)
  | int (n : Int)
  | arr (elems : List Value)
  | obj (fields : List (String × Value))

/-- Look up the first field with the given name in an object's field list. -/
def lookupField : List (String × Value) → String → Option Value
  | [], _ => none
  | (k, v) :: fs, key => if k = key then some v else lookupField fs key

/-- Replace the value of the first field with the given name, leaving the
list unchanged when the name is absent. -/
def replaceField : List (String × Value) → String → Value → List (String × Value)
  | [], _, _ => []
  | (k, v) :: fs, key, w => if k = key then (k, w) :: fs else (k, v) :: replaceField fs key w

/-- Resolve a field path (a sequence of field names) inside a value. -/
def getPath : List String → Value → Option Value
  | [], v => some v
  | k :: ks, v =>
    match v with
    | .obj fs =>
      match lookupField fs k with
      | some w => getPath ks w
      | none => none
    | _ => none

/-- Build the nested objects holding a default value at the end of a path. -/
def mkNested : List String → Value → Value
  | [], d => d
  | k :: ks, d => .obj [(k, mkNested ks d)]

/-- Whether a default targeted at this path would be written: the walk stays
inside objects and meets an absent field name before the path is exhausted. -/
def canSet : List String → Value → Bool
  | [], _ => false
  | k :: ks, v =>
    match v with
    | .obj fs =>
      match lookupField fs k with
      | some w => canSet ks w
      | none => true
    | _ => false

/-- Modelled from the spec: the Defaulter's single-path write (the CRD's
defaulting machinery is not in the source tree). If the target path is
absent in the object it is set to the default value, creating intermediate
objects; a present value (including a present-but-empty one) is left
untouched, and a non-object met along the path blocks the write. -/
def setAbsent : List String → Value → Value → Value
  | [], _, v => v
  | k :: ks, d, v =>
    match v with
    | .obj fs =>
      match lookupField fs k with
      | some w => .obj (replaceField fs k (setAbsent ks d w))
      | none => .obj (fs ++ [(k, mkNested ks d)])
    | _ => v

/-- A (path, value) pair applied only if the path is absent in the input. -/
structure DefaultSpec where
  path : List String
  value : Value

namespace Defaulter

/-- Modelled from the spec: `apply(ConfigurationObject, DefaultSpec list)`
applies each default in order, writing only entirely absent paths. -/
def apply (x : Value) (ds : List DefaultSpec) : Value :=
  ds.foldl (fun v d => setAbsent d.path d.value v) x

end Defaulter

/-- Modelled from the spec: the structural (platform-independent) defaults
injected on accept — a default replica count, a default state and a default
update-strategy value, as shown by the accepted fixtures of the test corpus. -/
def structuralDefaults : List DefaultSpec :=
  [⟨["replicas"], .int 3⟩, ⟨["state"], .str "Inactive"⟩, ⟨["strategy", "type"], .str "RollingUpdate"⟩]

/-- One segment of a violation path: a field name or an array index. -/
inductive Seg where
  | field (name : String)
  | index (i : Nat)
deriving DecidableEq, Repr

/-- Severity class of a violation, following the spec's error taxonomy:
structural (presence / absence / exclusivity), format (string length and
pattern) and type mismatches. -/
inductive Kind where
  | structural
  | format
  | typeError
deriving DecidableEq, Repr

/-- A reported rule failure: an attributed field path, a severity class and
a human-readable message. -/
structure Violation where
  path : List Seg
  kind : Kind
  message : String
deriving DecidableEq, Repr

/-- Render one non-leading path segment. -/
def renderSeg : Seg → String
  | .field n => "." ++ n
  | .index i => "[" ++ toString i ++ "]"

/-- Render a path the way resource-validation diagnostics do: array indices
as `name[N]` and nested fields as `name.subfield`. -/
def renderPath : List Seg → String
  | [] => ""
  | .field n :: rest => (rest.map renderSeg).foldl (fun a b => a ++ b) n
  | .index i :: rest => (rest.map renderSeg).foldl (fun a b => a ++ b) ("[" ++ toString i ++ "]")

/-- Modelled from the spec: the declared token grammar for availability
zones rejects values containing disallowed characters such as embedded
colons or interior whitespace. -/
def azOk (s : String) : Bool :=
  s.data.all (fun c => !(c == ':') && !(c == ' '))

/-- The merged union-exclusivity message of the OpenStack failure-domain
branch, preserved verbatim from the test corpus. -/
def requiredForbiddenMsg : String :=
  "openstack configuration is required when platform is OpenStack, and forbidden otherwise"

/-- Modelled from the spec: string constraints of an availabilityZone field
(minimum length one, token-grammar pattern), reported at the field's path. -/
def checkAZ (p : List Seg) (v : Value) : List Violation :=
  match v with
  | .str s =>
    (if s.length = 0 then [⟨p, .format, "should be at least 1 chars long"⟩] else [])
      ++ (if azOk s then [] else [⟨p, .format, "should match the pattern"⟩])
  | _ => [⟨p, .typeError, "must be of type string"⟩]

/-- Modelled from the spec: the bounded volumeType field, maximum length 255. -/
def checkVolumeType (p : List Seg) (v : Value) : List Violation :=
  match v with
  | .str s =>
    if 255 < s.length then [⟨p, .format, "Too long: may not be longer than 255"⟩] else []
  | _ => [⟨p, .typeError, "must be of type string"⟩]

/-- Whether an object value carries an availabilityZone field. -/
def hasAZField : Value → Bool
  | .obj fs => (lookupField fs "availabilityZone").isSome
  | _ => false

/-- Modelled from the spec: the rootVolume object of an OpenStack failure
domain — present but empty is rejected, and its availabilityZone and
volumeType fields carry string constraints. -/
def checkRootVolume (p : List Seg) (v : Value) : List Violation :=
  match v with
  | .obj [] => [⟨p, .structural, "should have at least 1 properties"⟩]
  | .obj fs =>
    (match lookupField fs "availabilityZone" with
     | some az => checkAZ (p ++ [.field "availabilityZone"]) az
     | none => [])
      ++ (match lookupField fs "volumeType" with
          | some vt => checkVolumeType (p ++ [.field "volumeType"]) vt
          | none => [])
  | _ => [⟨p, .typeError, "must be of type object"⟩]

/-- Modelled from the spec: one OpenStack failure-domain element. A
syntactically empty element is rejected at the element's own index; the
nested conditional requirement (rootVolume.availabilityZone is required
once availabilityZone is set and a rootVolume is present) is attributed to
the element path; field constraints then recurse with index-qualified
paths. -/
def checkElement (p : List Seg) (v : Value) : List Violation :=
  match v with
  | .obj [] => [⟨p, .structural, "should have at least 1 properties"⟩]
  | .obj fs =>
    (if (lookupField fs "availabilityZone").isSome then
       match lookupField fs "rootVolume" with
       | some rv =>
         if hasAZField rv then []
         else [⟨p, .structural, "rootVolume.availabilityZone is required when availabilityZone is set"⟩]
       | none => []
     else [])
      ++ (match lookupField fs "availabilityZone" with
          | some az => checkAZ (p ++ [.field "availabilityZone"]) az
          | none => [])
      ++ (match lookupField fs "rootVolume" with
          | some rv => checkRootVolume (p ++ [.field "rootVolume"]) rv
          | none => [])
  | _ => [⟨p, .typeError, "must be of type object"⟩]

/-- Validate every element of the openstack list, each with its own
index-qualified path. -/
def checkElements (p : List Seg) : Nat → List Value → List Violation
  | _, [] => []
  | i, v :: vs => checkElement (p ++ [.index i]) v ++ checkElements p (i + 1) vs

/-- Modelled from the spec: the failureDomains union node. The platform
discriminator selects the branch; a populated payload without any
discriminator is a missing-required-field violation at the discriminator's
path; a payload of the wrong shape is a type violation at the payload's own
path (reported instead of the union rule); the union exclusivity rule
(payload present exactly when the discriminator names OpenStack) is
attributed to the union node itself with the merged message; an empty or
unknown discriminator with no payload is fail-open. -/
def validateFailureDomains (p : List Seg) (fd : Value) : List Violation :=
  match fd with
  | .obj fs =>
    match lookupField fs "platform" with
    | none =>
      match lookupField fs "openstack" with
      | some _ => [⟨p ++ [.field "platform"], .structural, "Required value"⟩]
      | none => []
    | some (.str pf) =>
      match lookupField fs "openstack" with
      | none =>
        if pf = "OpenStack" then [⟨p, .structural, requiredForbiddenMsg⟩] else []
      | some (.arr elems) =>
        if pf = "OpenStack" then checkElements (p ++ [.field "openstack"]) 0 elems
        else [⟨p, .structural, requiredForbiddenMsg⟩]
      | some _ => [⟨p ++ [.field "openstack"], .typeError, "must be of type array"⟩]
    | some _ => [⟨p ++ [.field "platform"], .typeError, "must be of type string"⟩]
  | _ => [⟨p, .typeError, "must be of type object"⟩]

/-- Collect the violations of a (defaulted) configuration object: the
failureDomains union node is validated when present, fail-open otherwise. -/
def violationsOf (v : Value) : List Violation :=
  match v with
  | .obj fs =>
    match lookupField fs "failureDomains" with
    | some fd => validateFailureDomains [.field "failureDomains"] fd
    | none => []
  | _ => [⟨[], .typeError, "must be of type object"⟩]

/-- Modelled from the spec: the validator orchestrator. Structural defaults
are applied first; the defaulted object is returned on accept, the ordered
violation list on reject. -/
def validateConfig (x : Value) : Except (List Violation) Value :=
  let d := Defaulter.apply x structuralDefaults
  if violationsOf d = [] then .ok d else .error (violationsOf d)

/-- Whether validation accepts the input. -/
def accepts (x : Value) : Bool :=
  match validateConfig x with
  | .ok _ => true
  | .error _ => false

/-- Whether the first path is a (not necessarily strict) prefix of the
second, so that the two paths lie on one root-to-leaf line when either
direction holds. -/
def pathLe : List String → List String → Bool
  | [], _ => true
  | _ :: _, [] => false
  | a :: p, b :: q => a == b && pathLe p q

theorem pathLe_refl (p : List String) : pathLe p p = true := by
  induction p with
  | nil => rfl
  | cons a p ih => simp [pathLe, ih]

theorem lookupField_replaceField_self (fs : List (String × Value)) (k : String) (w w' : Value)
    (h : lookupField fs k = some w) :
    lookupField (replaceField fs k w') k = some w' := by
  induction fs with
  | nil => simp [lookupField] at h
  | cons hd tl ih =>
    obtain ⟨k0, v0⟩ := hd
    by_cases hk : k0 = k
    · simp [lookupField, replaceField, hk]
    · simp only [lookupField, if_neg hk] at h
      simp [lookupField, replaceField, hk, ih h]

theorem replaceField_self (fs : List (String × Value)) (k : String) (w : Value)
    (h : lookupField fs k = some w) : replaceField fs k w = fs := by
  induction fs with
  | nil => rfl
  | cons hd tl ih =>
    obtain ⟨k0, v0⟩ := hd
    by_cases hk : k0 = k
    · simp only [lookupField, if_pos hk, Option.some.injEq] at h
      simp [replaceField, hk, h]
    · simp only [lookupField, if_neg hk] at h
      simp [replaceField, hk, ih h]

theorem lookupField_replaceField_ne (fs : List (String × Value)) (k k' : String) (w' : Value)
    (h : k ≠ k') :
    lookupField (replaceField fs k w') k' = lookupField fs k' := by
  induction fs with
  | nil => rfl
  | cons hd tl ih =>
    obtain ⟨k0, v0⟩ := hd
    by_cases hk : k0 = k
    · subst hk
      simp [replaceField, lookupField, h]
    · simp [replaceField, lookupField, hk, ih]

theorem lookupField_append_some (fs l : List (String × Value)) (k : String) (w : Value)
    (h : lookupField fs k = some w) : lookupField (fs ++ l) k = some w := by
  induction fs with
  | nil => simp [lookupField] at h
  | cons hd tl ih =>
    obtain ⟨k0, v0⟩ := hd
    by_cases hk : k0 = k
    · simp only [lookupField, if_pos hk] at h
      simp [lookupField, hk, h]
    · simp only [lookupField, if_neg hk] at h
      simp [lookupField, hk, ih h]

theorem lookupField_append_none (fs l : List (String × Value)) (k : String)
    (h : lookupField fs k = none) : lookupField (fs ++ l) k = lookupField l k := by
  induction fs with
  | nil => rfl
  | cons hd tl ih =>
    obtain ⟨k0, v0⟩ := hd
    by_cases hk : k0 = k
    · simp [lookupField, if_pos hk] at h
    · simp only [lookupField, if_neg hk] at h
      simp [lookupField, hk, ih h]

theorem canSet_mkNested (ks : List String) (d : Value) :
    canSet ks (mkNested ks d) = false := by
  induction ks with
  | nil => rfl
  | cons k ks ih => simp [mkNested, canSet, lookupField, ih]

theorem getPath_mkNested (ks : List String) (d : Value) :
    getPath ks (mkNested ks d) = some d := by
  induction ks with
  | nil => rfl
  | cons k ks ih => simp [mkNested, getPath, lookupField, ih]

theorem setAbsent_noop (p : List String) (d v : Value) (h : canSet p v = false) :
    setAbsent p d v = v := by
  induction p generalizing v with
  | nil => rfl
  | cons k ks ih =>
    cases v with
    | obj fs =>
      cases hl : lookupField fs k with
      | some w =>
        have hw : canSet ks w = false := by simpa [canSet, hl] using h
        simp [setAbsent, hl, ih w hw, replaceField_self fs k w hl]
      | none => simp [canSet, hl] at h
    | str s => rfl
    | int n => rfl
    | arr es => rfl

theorem canSet_setAbsent (p : List String) (d v : Value) :
    canSet p (setAbsent p d v) = false := by
  induction p generalizing v with
  | nil => rfl
  | cons k ks ih =>
    cases v with
    | obj fs =>
      cases hl : lookupField fs k with
      | some w =>
        have hs := lookupField_replaceField_self fs k w (setAbsent ks d w) hl
        simp [setAbsent, hl, canSet, hs, ih]
      | none =>
        have h2 : lookupField (fs ++ [(k, mkNested ks d)]) k = some (mkNested ks d) := by
          rw [lookupField_append_none fs _ k hl]
          simp [lookupField]
        simp [setAbsent, hl, canSet, h2, canSet_mkNested]
    | str s => rfl
    | int n => rfl
    | arr es => rfl

theorem canSet_stable (p : List String) (q : List String) (e v : Value)
    (h : canSet p v = false) : canSet p (setAbsent q e v) = false := by
  induction p generalizing q v with
  | nil => rfl
  | cons k ks ih =>
    cases q with
    | nil => simpa [setAbsent] using h
    | cons k2 qs =>
      cases v with
      | obj fs =>
        cases hl : lookupField fs k with
        | none => simp [canSet, hl] at h
        | some w =>
          have hw : canSet ks w = false := by simpa [canSet, hl] using h
          cases hl2 : lookupField fs k2 with
          | some w2 =>
            by_cases hk : k2 = k
            · subst hk
              rw [hl] at hl2
              obtain rfl : w = w2 := Option.some.inj hl2
              have hs := lookupField_replaceField_self fs k2 w (setAbsent qs e w) hl
              simp [setAbsent, hl, canSet, hs, ih qs w hw]
            · have hs := lookupField_replaceField_ne fs k2 k (setAbsent qs e w2) hk
              simp [setAbsent, hl2, canSet, hs, hl, hw]
          | none =>
            have hs : lookupField (fs ++ [(k2, mkNested qs e)]) k = some w :=
              lookupField_append_some fs _ k w hl
            simp [setAbsent, hl2, canSet, hs, hw]
      | str s => simpa [setAbsent] using h
      | int n => simpa [setAbsent] using h
      | arr es => simpa [setAbsent] using h

theorem canSet_apply_stable (ds : List DefaultSpec) (x : Value) (p : List String)
    (h : canSet p x = false) : canSet p (Defaulter.apply x ds) = false := by
  induction ds generalizing x with
  | nil => exact h
  | cons d tl ih => exact ih (setAbsent d.path d.value x) (canSet_stable p d.path d.value x h)

theorem canSet_apply_mem (ds : List DefaultSpec) (x : Value) (sp : DefaultSpec)
    (h : sp ∈ ds) : canSet sp.path (Defaulter.apply x ds) = false := by
  induction ds generalizing x with
  | nil => cases h
  | cons d tl ih =>
    rcases List.mem_cons.mp h with rfl | h'
    · exact canSet_apply_stable tl _ sp.path (canSet_setAbsent sp.path sp.value x)
    · exact ih (setAbsent d.path d.value x) h'

theorem apply_of_noops (ds : List DefaultSpec) (x : Value)
    (h : ∀ sp ∈ ds, canSet sp.path x = false) : Defaulter.apply x ds = x := by
  induction ds with
  | nil => rfl
  | cons d tl ih =>
    have h1 : setAbsent d.path d.value x = x :=
      setAbsent_noop d.path d.value x (h d (List.mem_cons_self d tl))
    show Defaulter.apply (setAbsent d.path d.value x) tl = x
    rw [h1]
    exact ih (fun sp hsp => h sp (List.mem_cons_of_mem d hsp))

theorem getPath_mkNested_ne (ks qs : List String) (e : Value)
    (h1 : pathLe ks qs = false) (h2 : pathLe qs ks = false) :
    getPath ks (mkNested qs e) = none := by
  induction ks generalizing qs with
  | nil => simp [pathLe] at h1
  | cons k ks' ih =>
    cases qs with
    | nil => simp [pathLe] at h2
    | cons k2 qs' =>
      by_cases hk : k2 = k
      · subst hk
        have h1' : pathLe ks' qs' = false := by simpa [pathLe] using h1
        have h2' : pathLe qs' ks' = false := by simpa [pathLe] using h2
        simp [mkNested, getPath, lookupField, ih qs' h1' h2']
      · simp [mkNested, getPath, lookupField, hk]

theorem getPath_setAbsent_diverge (p q : List String) (e v : Value)
    (h1 : pathLe p q = false) (h2 : pathLe q p = false) :
    getPath p (setAbsent q e v) = getPath p v := by
  induction p generalizing q v with
  | nil => simp [pathLe] at h1
  | cons k ks ih =>
    cases q with
    | nil => simp [pathLe] at h2
    | cons k2 qs =>
      by_cases hk : k2 = k
      · subst hk
        have h1' : pathLe ks qs = false := by simpa [pathLe] using h1
        have h2' : pathLe qs ks = false := by simpa [pathLe] using h2
        cases v with
        | obj fs =>
          cases hl : lookupField fs k2 with
          | some w =>
            have hs := lookupField_replaceField_self fs k2 w (setAbsent qs e w) hl
            simp [setAbsent, hl, getPath, hs, ih qs w h1' h2']
          | none =>
            have hs : lookupField (fs ++ [(k2, mkNested qs e)]) k2 = some (mkNested qs e) := by
              rw [lookupField_append_none fs _ k2 hl]
              simp [lookupField]
            simp [setAbsent, hl, getPath, hs, getPath_mkNested_ne ks qs e h1' h2']
        | str s => rfl
        | int n => rfl
        | arr es => rfl
      · cases v with
        | obj fs =>
          cases hl : lookupField fs k2 with
          | some w2 =>
            have hs := lookupField_replaceField_ne fs k2 k (setAbsent qs e w2) hk
            simp [setAbsent, hl, getPath, hs]
          | none =>
            have hs : lookupField (fs ++ [(k2, mkNested qs e)]) k = lookupField fs k := by
              cases hl3 : lookupField fs k with
              | some w => rw [lookupField_append_some fs _ k w hl3]
              | none =>
                rw [lookupField_append_none fs _ k hl3]
                simp [lookupField, hk]
            simp [setAbsent, hl, getPath, hs]
        | str s => rfl
        | int n => rfl
        | arr es => rfl

theorem canSet_of_getPath_some (p : List String) (v u : Value)
    (h : getPath p v = some u) : canSet p v = false := by
  induction p generalizing v with
  | nil => rfl
  | cons k ks ih =>
    cases v with
    | obj fs =>
      cases hl : lookupField fs k with
      | some w =>
        have h' : getPath ks w = some u := by simpa [getPath, hl] using h
        simp [canSet, hl, ih w h']
      | none => simp [getPath, hl] at h
    | str s => simp [getPath] at h
    | int n => simp [getPath] at h
    | arr es => simp [getPath] at h

theorem getPath_isSome_of_le (q p : List String) (v u : Value)
    (hle : pathLe q p = true) (h : getPath p v = some u) : (getPath q v).isSome := by
  induction q generalizing p v with
  | nil => simp [getPath]
  | cons k qs ih =>
    cases p with
    | nil => simp [pathLe] at hle
    | cons k2 ps =>
      have hk : k = k2 ∧ pathLe qs ps = true := by simpa [pathLe] using hle
      obtain ⟨rfl, hle'⟩ := hk
      cases v with
      | obj fs =>
        cases hl : lookupField fs k with
        | some w =>
          have h' : getPath ps w = some u := by simpa [getPath, hl] using h
          have hres := ih ps w hle' h'
          simpa [getPath, hl] using hres
        | none => simp [getPath, hl] at h
      | str s => simp [getPath] at h
      | int n => simp [getPath] at h
      | arr es => simp [getPath] at h

theorem getPath_apply_of_present (ds : List DefaultSpec) (x : Value) (p : List String) (u : Value)
    (hp : getPath p x = some u)
    (hnb : ∀ sp ∈ ds, ¬(pathLe p sp.path = true ∧ p ≠ sp.path)) :
    getPath p (Defaulter.apply x ds) = some u := by
  induction ds generalizing x with
  | nil => exact hp
  | cons d tl ih =>
    have step : getPath p (setAbsent d.path d.value x) = some u := by
      by_cases hpre : pathLe d.path p = true
      · obtain ⟨w, hw⟩ := Option.isSome_iff_exists.mp (getPath_isSome_of_le d.path p x u hpre hp)
        rw [setAbsent_noop d.path d.value x (canSet_of_getPath_some d.path x w hw)]
        exact hp
      · by_cases hpre2 : pathLe p d.path = true
        · exfalso
          have hne := hnb d (List.mem_cons_self d tl)
          have heq : p = d.path := by
            by_contra hne2
            exact hne ⟨hpre2, hne2⟩
          rw [heq] at hpre
          exact hpre (pathLe_refl d.path)
        · rw [getPath_setAbsent_diverge p d.path d.value x
            (Bool.eq_false_iff.mpr hpre2) (Bool.eq_false_iff.mpr hpre)]
          exact hp
    exact ih (setAbsent d.path d.value x) step
      (fun sp hsp => hnb sp (List.mem_cons_of_mem d hsp))

theorem getPath_apply_frame (ds : List DefaultSpec) (x : Value) (p : List String)
    (h : ∀ sp ∈ ds, pathLe p sp.path = false ∧ pathLe sp.path p = false) :
    getPath p (Defaulter.apply x ds) = getPath p x := by
  induction ds generalizing x with
  | nil => rfl
  | cons d tl ih =>
    have hd := h d (List.mem_cons_self d tl)
    show getPath p (Defaulter.apply (setAbsent d.path d.value x) tl) = getPath p x
    rw [ih (setAbsent d.path d.value x) (fun sp hsp => h sp (List.mem_cons_of_mem d hsp))]
    exact getPath_setAbsent_diverge p d.path d.value x hd.1 hd.2

/-- Fixture: failureDomains with the OpenStack discriminator and no payload. -/
def cfgNoPayload : Value :=
  .obj [("failureDomains", .obj [("platform", .str "OpenStack")])]

/-- Fixture: failureDomains with an arbitrary discriminator and a populated
openstack payload holding one well-formed element. -/
def cfgPayload (pf : String) : Value :=
  .obj [("failureDomains", .obj [("platform", .str pf),
    ("openstack", .arr [.obj [("availabilityZone", .str "foo")]])])]

/-- Fixture: failureDomains with an empty-string discriminator and nothing else. -/
def cfgEmptyPlatform : Value :=
  .obj [("failureDomains", .obj [("platform", .str "")])]

/-- The defaulted output for the empty-platform fixture: structural defaults
injected, the empty platform value unchanged. -/
def cfgEmptyPlatformOut : Value :=
  .obj [("failureDomains", .obj [("platform", .str "")]),
    ("replicas", .int 3), ("state", .str "Inactive"),
    ("strategy", .obj [("type", .str "RollingUpdate")])]

/-- Fixture: a well-formed first element and a syntactically empty second one. -/
def cfgEmptyElem : Value :=
  .obj [("failureDomains", .obj [("platform", .str "OpenStack"),
    ("openstack", .arr [.obj [("availabilityZone", .str "foo")], .obj []])])]

/-- Fixture: a populated openstack payload with no platform field at all. -/
def cfgNoPlatform : Value :=
  .obj [("failureDomains", .obj [
    ("openstack", .arr [.obj [("availabilityZone", .str "foo")]])])]

/-- Fixture: the OpenStack discriminator with an empty-object payload where
an array is required. -/
def cfgObjPayload : Value :=
  .obj [("failureDomains", .obj [("platform", .str "OpenStack"),
    ("openstack", .obj [])])]

/-- The union-exclusivity violation at the failureDomains node. -/
def unionViol : Violation :=
  ⟨[Seg.field "failureDomains"], Kind.structural, requiredForbiddenMsg⟩

/-- C7: Defaulting is idempotent: re-applying any DefaultSpec list to an
already-defaulted object changes nothing. -/
theorem defaulting_idempotent (x : Value) (ds : List DefaultSpec) :
    Defaulter.apply (Defaulter.apply x ds) ds = Defaulter.apply x ds :=
  apply_of_noops ds (Defaulter.apply x ds) (fun sp hsp => canSet_apply_mem ds x sp hsp)

/-- C3: an input whose failureDomains has an empty-string platform
discriminator and no union payload is accepted; the output injects the
structural defaults (replica count, state, update-strategy value) and keeps
the empty platform value unchanged, with no platform-specific defaults or
violations. -/
theorem emptyPlatform_fail_open :
    validateConfig cfgEmptyPlatform = .ok cfgEmptyPlatformOut := rfl

/-- C5: a list with one well-formed element and one syntactically empty
element yields exactly one violation, attributed to the empty element's
index, with nothing reported for the well-formed element. -/
theorem emptyElement_single_violation :
    validateConfig cfgEmptyElem
      = .error [⟨[Seg.field "failureDomains", Seg.field "openstack", Seg.index 1],
          Kind.structural, "should have at least 1 properties"⟩]
    ∧ renderPath [Seg.field "failureDomains", Seg.field "openstack", Seg.index 1]
      = "failureDomains.openstack[1]" := ⟨rfl, rfl⟩

/-- C9: a populated openstack payload with no platform discriminator at all
is rejected with exactly one Required-value violation at the discriminator's
own path, not at the union node or the payload. -/
theorem missingPlatform_required :
    validateConfig cfgNoPlatform
      = .error [⟨[Seg.field "failureDomains", Seg.field "platform"],
          Kind.structural, "Required value"⟩]
    ∧ renderPath [Seg.field "failureDomains", Seg.field "platform"]
      = "failureDomains.platform" := ⟨rfl, rfl⟩

/-- C10: an OpenStack discriminator with an empty-object payload (where an
array is required) is rejected with exactly the type violation at the
payload field's own path; the union-level exclusivity violation is not
reported. -/
theorem wrongShapePayload_type_violation :
    validateConfig cfgObjPayload
      = .error [⟨[Seg.field "failureDomains", Seg.field "openstack"],
          Kind.typeError, "must be of type array"⟩]
    ∧ (⟨[Seg.field "failureDomains", Seg.field "openstack"],
          Kind.typeError, "must be of type array"⟩ : Violation) ≠ unionViol := by
  refine ⟨rfl, ?_⟩
  decide

/-- C1: a discriminator naming OpenStack with an absent openstack payload,
or any other discriminator value with a populated openstack payload, yields
exactly one structural violation attributed to the failureDomains union node
(not to the payload field), the second case carrying the single merged
required-and-forbidden message. -/
theorem union_exclusivity (pf : String) (h : pf ≠ "OpenStack") :
    validateConfig cfgNoPayload = .error [unionViol]
      ∧ validateConfig (cfgPayload pf) = .error [unionViol]
      ∧ renderPath unionViol.path = "failureDomains" := by
  refine ⟨rfl, ?_, rfl⟩
  have h0 : violationsOf (Defaulter.apply (cfgPayload pf) structuralDefaults)
      = if pf = "OpenStack" then [] else [unionViol] := rfl
  simp [validateConfig, h0, h]

/-- Closed instance of the union-exclusivity theorem at the BareMetal
discriminator of the test corpus. -/
theorem union_exclusivity_witness :
    ("BareMetal" : String) ≠ "OpenStack"
      ∧ validateConfig (cfgPayload "BareMetal") = .error [unionViol] :=
  ⟨by decide, (union_exclusivity "BareMetal" (by decide)).2.1⟩

/-- Path of the bounded volumeType field of the first openstack element. -/
def vtPath : List Seg :=
  [Seg.field "failureDomains", Seg.field "openstack", Seg.index 0,
   Seg.field "rootVolume", Seg.field "volumeType"]

/-- The too-long violation of the bounded volumeType field. -/
def vtViol : Violation := ⟨vtPath, Kind.format, "Too long: may not be longer than 255"⟩

/-- Fixture: an OpenStack failure domain whose rootVolume carries the given
volumeType string. -/
def cfgVT (s : String) : Value :=
  .obj [("failureDomains", .obj [("platform", .str "OpenStack"),
    ("openstack", .arr [.obj [("rootVolume", .obj [("volumeType", .str s)])]])])]

set_option maxRecDepth 100000 in
/-- C4: a populated volumeType of length L fails with a format violation at
the field's own path iff L exceeds the declared maximum 255; in particular a
255-character value passes and a 256-character value is rejected. -/
theorem volumeType_length_bound :
    (∀ s : String, violationsOf (Defaulter.apply (cfgVT s) structuralDefaults)
        = if 255 < s.length then [vtViol] else [])
      ∧ (∀ s : String, accepts (cfgVT s) = decide (s.length ≤ 255))
      ∧ accepts (cfgVT (String.mk (List.replicate 255 'a'))) = true
      ∧ accepts (cfgVT (String.mk (List.replicate 256 'a'))) = false := by
  have key : ∀ s : String, violationsOf (Defaulter.apply (cfgVT s) structuralDefaults)
      = if 255 < s.length then [vtViol] else [] := by
    intro s
    have h0 : violationsOf (Defaulter.apply (cfgVT s) structuralDefaults)
        = checkVolumeType vtPath (Value.str s) ++ [] := rfl
    rw [h0, List.append_nil, checkVolumeType]
    rfl
  refine ⟨key, ?_, ?_, ?_⟩
  · intro s
    by_cases h : 255 < s.length
    · have ha : accepts (cfgVT s) = false := by simp [accepts, validateConfig, key s, h]
      rw [ha, decide_eq_false (Nat.not_le.mpr h)]
    · have ha : accepts (cfgVT s) = true := by simp [accepts, validateConfig, key s, h]
      rw [ha, decide_eq_true (Nat.not_lt.mp h)]
  · rfl
  · rfl

/-- Path of the outer availabilityZone of the first openstack element. -/
def azPath : List Seg :=
  [Seg.field "failureDomains", Seg.field "openstack", Seg.index 0,
   Seg.field "availabilityZone"]

/-- Path of the rootVolume availabilityZone of the first openstack element. -/
def rvAzPath : List Seg :=
  [Seg.field "failureDomains", Seg.field "openstack", Seg.index 0,
   Seg.field "rootVolume", Seg.field "availabilityZone"]

/-- The pattern-mismatch violation of the outer availabilityZone. -/
def azPatternViol : Violation := ⟨azPath, Kind.format, "should match the pattern"⟩

/-- The pattern-mismatch violation of the rootVolume availabilityZone. -/
def rvAzPatternViol : Violation := ⟨rvAzPath, Kind.format, "should match the pattern"⟩

/-- Fixture: an OpenStack failure domain with the given outer
availabilityZone string. -/
def cfgAZ (s : String) : Value :=
  .obj [("failureDomains", .obj [("platform", .str "OpenStack"),
    ("openstack", .arr [.obj [("availabilityZone", .str s)]])])]

/-- Fixture: an OpenStack failure domain with the given rootVolume
availabilityZone string. -/
def cfgRVAZ (s : String) : Value :=
  .obj [("failureDomains", .obj [("platform", .str "OpenStack"),
    ("openstack", .arr [.obj [("rootVolume", .obj [("availabilityZone", .str s)])]])])]

/-- C6: an availabilityZone value containing a disallowed character (an
embedded colon or interior whitespace), whether outer or under rootVolume,
is rejected with a pattern-mismatch format violation attributed to that
availabilityZone field's own path. -/
theorem az_pattern_reject (s : String) (h : azOk s = false) :
    (azPatternViol ∈ violationsOf (Defaulter.apply (cfgAZ s) structuralDefaults)
        ∧ accepts (cfgAZ s) = false)
      ∧ (rvAzPatternViol ∈ violationsOf (Defaulter.apply (cfgRVAZ s) structuralDefaults)
        ∧ accepts (cfgRVAZ s) = false) := by
  have h0 : violationsOf (Defaulter.apply (cfgAZ s) structuralDefaults)
      = (checkAZ azPath (Value.str s) ++ []) ++ [] := rfl
  have h1 : violationsOf (Defaulter.apply (cfgRVAZ s) structuralDefaults)
      = (checkAZ rvAzPath (Value.str s) ++ []) ++ [] := rfl
  rw [List.append_nil, List.append_nil] at h0
  rw [List.append_nil, List.append_nil] at h1
  refine ⟨⟨?_, ?_⟩, ?_, ?_⟩
  · rw [h0, checkAZ]
    simp only [h, Bool.false_eq_true, if_false, List.mem_append, List.mem_ite_nil_right,
      List.mem_singleton]
    exact Or.inr rfl
  · simp [accepts, validateConfig, h0, checkAZ, h]
  · rw [h1, checkAZ]
    simp only [h, Bool.false_eq_true, if_false, List.mem_append, List.mem_ite_nil_right,
      List.mem_singleton]
    exact Or.inr rfl
  · simp [accepts, validateConfig, h1, checkAZ, h]

/-- Closed instance of the pattern theorem at the corpus's colon-bearing
availability zone. -/
theorem az_pattern_reject_witness :
    azOk "foo:bar" = false
      ∧ accepts (cfgAZ "foo:bar") = false
      ∧ accepts (cfgRVAZ "foo:bar") = false :=
  ⟨by decide, (az_pattern_reject "foo:bar" (by decide)).1.2,
    (az_pattern_reject "foo:bar" (by decide)).2.2⟩

/-- An OpenStack failure-domain element parameterized by which identifier
fields are set: the outer availabilityZone, the rootVolume object, and the
rootVolume availabilityZone (a present rootVolume always carries a
volumeType so it is never syntactically empty). -/
def osElem (az rv rvAz : Bool) : Value :=
  .obj ((if az then [("availabilityZone", Value.str "foo")] else [])
    ++ (if rv then
          [("rootVolume", Value.obj
            ((if rvAz then [("availabilityZone", Value.str "foo")] else [])
              ++ [("volumeType", Value.str "bar")]))]
        else []))

/-- Fixture: an OpenStack failure domain holding one parameterized element. -/
def cfgElem (az rv rvAz : Bool) : Value :=
  .obj [("failureDomains", .obj [("platform", .str "OpenStack"),
    ("openstack", .arr [osElem az rv rvAz])])]

/-- The conditional nested-requirement violation, attributed to the
branch-element path openstack[0] rather than to the nested field path. -/
def condViol : Violation :=
  ⟨[Seg.field "failureDomains", Seg.field "openstack", Seg.index 0], Kind.structural,
    "rootVolume.availabilityZone is required when availabilityZone is set"⟩

/-- C2 (counterexample to the claim as stated): an element that sets only
the outer availabilityZone, with no rootVolume at all — so its required
nested counterpart rootVolume.availabilityZone is absent — is accepted with
zero violations rather than rejected with exactly one. -/
theorem nested_requirement_counterexample :
    violationsOf (Defaulter.apply (cfgPayload "OpenStack") structuralDefaults) = []
      ∧ validateConfig (cfgPayload "OpenStack")
        = .ok (.obj [("failureDomains", .obj [("platform", .str "OpenStack"),
            ("openstack", .arr [.obj [("availabilityZone", .str "foo")]])]),
            ("replicas", .int 3), ("state", .str "Inactive"),
            ("strategy", .obj [("type", .str "RollingUpdate")])]) := ⟨rfl, rfl⟩

/-- C2 (amended): the nested conditional requirement fires exactly when the
outer availabilityZone is set, a rootVolume is present, and the rootVolume
availabilityZone is absent; it is then the only violation and is attributed
to the element path openstack[0]; with both identifiers set, or neither,
no such violation arises, and an outer availabilityZone with no rootVolume
at all is likewise free of it. -/
theorem nested_requirement_amended :
    ∀ az rv rvAz : Bool,
      (condViol ∈ violationsOf (Defaulter.apply (cfgElem az rv rvAz) structuralDefaults)
          ↔ (az && rv && !rvAz) = true)
        ∧ ((az && rv && !rvAz) = true →
            violationsOf (Defaulter.apply (cfgElem az rv rvAz) structuralDefaults)
              = [condViol]) := by
  decide

/-- Closed instance of the amended nested-requirement theorem at the
corpus's rejected fixture (outer availabilityZone and rootVolume set,
rootVolume availabilityZone missing). -/
theorem nested_requirement_witness :
    condViol ∈ violationsOf (Defaulter.apply (cfgElem true true false) structuralDefaults)
      ∧ violationsOf (Defaulter.apply (cfgElem true true false) structuralDefaults)
        = [condViol] :=
  ⟨(nested_requirement_amended true true false).1.mpr (by decide),
    (nested_requirement_amended true true false).2 (by decide)⟩

/-- C8 (counterexample to the claim as stated): with defaults targeting both
a present path and an absent path strictly below it, the present target's
value does change — the Defaulter fills the absent sub-path beneath it — so
"present targets are left unchanged" fails for object-valued targets. -/
theorem defaulter_frame_counterexample :
    (⟨["a"], Value.int 9⟩ : DefaultSpec)
        ∈ ([⟨["a"], Value.int 9⟩, ⟨["a", "b"], Value.int 2⟩] : List DefaultSpec)
      ∧ getPath ["a"] (Value.obj [("a", Value.obj [])]) = some (Value.obj [])
      ∧ getPath ["a"] (Defaulter.apply (Value.obj [("a", Value.obj [])])
          [⟨["a"], Value.int 9⟩, ⟨["a", "b"], Value.int 2⟩])
        = some (Value.obj [("b", Value.int 2)])
      ∧ Value.obj [("b", Value.int 2)] ≠ Value.obj [] := by
  refine ⟨List.mem_cons_self _ _, rfl, rfl, ?_⟩
  simp

/-- C8 (amended): the Defaulter writes only at absent paths — a DefaultSpec
whose target is present in the input (including present-but-empty) leaves
that value unchanged provided no other DefaultSpec targets a path strictly
below it, and every path lying on no DefaultSpec path's root-to-leaf line
is unchanged in the output. -/
theorem defaulter_frame_amended (x : Value) (ds : List DefaultSpec) :
    (∀ sp ∈ ds, ∀ u : Value, getPath sp.path x = some u →
        (∀ sp2 ∈ ds, ¬(pathLe sp.path sp2.path = true ∧ sp.path ≠ sp2.path)) →
        getPath sp.path (Defaulter.apply x ds) = some u)
      ∧ (∀ p : List String,
          (∀ sp ∈ ds, pathLe p sp.path = false ∧ pathLe sp.path p = false) →
          getPath p (Defaulter.apply x ds) = getPath p x) :=
  ⟨fun sp _ u hu hnb => getPath_apply_of_present ds x sp.path u hu hnb,
    fun p hp => getPath_apply_frame ds x p hp⟩

/-- Closed instance of the amended frame theorem on the structural defaults:
a present replica count survives defaulting unchanged, and the platform
field (targeted by no default) is untouched. -/
theorem defaulter_frame_witness :
    getPath ["replicas"]
        (Defaulter.apply (Value.obj [("replicas", Value.int 5), ("platform", Value.str "")])
          structuralDefaults) = some (Value.int 5)
      ∧ getPath ["platform"]
          (Defaulter.apply (Value.obj [("replicas", Value.int 5), ("platform", Value.str "")])
            structuralDefaults)
        = getPath ["platform"] (Value.obj [("replicas", Value.int 5), ("platform", Value.str "")]) := by
  constructor
  · refine (defaulter_frame_amended
      (Value.obj [("replicas", Value.int 5), ("platform", Value.str "")]) structuralDefaults).1
      ⟨["replicas"], Value.int 3⟩ (List.mem_cons_self _ _) (Value.int 5) rfl ?_
    intro sp2 h2
    simp only [structuralDefaults, List.mem_cons, List.not_mem_nil, or_false] at h2
    rcases h2 with rfl | rfl | rfl <;> decide
  · refine (defaulter_frame_amended
      (Value.obj [("replicas", Value.int 5), ("platform", Value.str "")]) structuralDefaults).2
      ["platform"] ?_
    intro sp h2
    simp only [structuralDefaults, List.mem_cons, List.not_mem_nil, or_false] at h2
    rcases h2 with rfl | rfl | rfl <;> decide
